import Mathlib

/-!
Verification of the Assignment_2 data-collection pipeline
(`phase_1/1_collect_data.py`, `dataset_schema.py`, `utils.py`).

Shallow embedding: pandas `DataFrame`s become typed lists of records,
dates become `Nat` (an already-canonical ordered date stamp, so
`pd.to_datetime` is the identity in the model), prices become `ℚ`, and
each external effect (yfinance fetch, HTTP GET, HTML parsing by
BeautifulSoup, pandera validation) becomes an explicit oracle argument.
`DataFrame.sort_values` is embedded as `List.mergeSort` on the sort key.
-/

namespace Sentiment

/-- One row of a news stub table (`analyst_ratings.csv` / `headlines.csv`),
columns `id, headline, URL, publisher, date, symbol`.  `symbol` is nullable
(general market news). -/
structure NewsRow where
  id : Int
  headline : String
  url : String
  publisher : String
  date : Nat
  symbol : Option String
  deriving Repr, DecidableEq

/-- The comparison `sort_values('date')` sorts by. -/
def dateLE (a b : NewsRow) : Bool := decide (a.date ≤ b.date)

/-- `all_news_df['id'] = range(1, len(all_news_df) + 1)`:
reassign `id` as the dense sequence 1, 2, … in current row order. -/
def reassignIds (l : List NewsRow) : List NewsRow :=
  l.enum.map (fun p => { p.2 with id := ((p.1 + 1 : Nat) : Int) })

/-- The guarantee pandas documents for `sort_values('date')` with the
default `kind='quicksort'`: the result is some permutation of the input
that is sorted by the key.  Stability is NOT part of the guarantee (only
`kind='mergesort'`/`'stable'` are stable), so the model quantifies over
the concrete sorting algorithm instead of fixing one. -/
def SortValuesDateSpec (sorter : List NewsRow → List NewsRow) : Prop :=
  ∀ l, (sorter l).Perm l ∧ (sorter l).Pairwise (fun a b => a.date ≤ b.date)

/-- The pure table transformation performed by `merge_datasets`
(lines 242–254): project both loaded stub tables to the common column
set (the identity at this typed level), concatenate first source before
second source with `ignore_index=True`, reassign ids sequentially from 1,
parse dates (identity on the canonical `Nat` dates of the model), and
sort by date via `sort_values('date')`, whose unspecified sorting
algorithm (numpy quicksort by default) is the `sorter` parameter. -/
def mergeDatasets (sorter : List NewsRow → List NewsRow)
    (analyst headlines : List NewsRow) : List NewsRow :=
  sorter (reassignIds (analyst ++ headlines))

theorem dateLE_trans : ∀ a b c : NewsRow, dateLE a b → dateLE b c → dateLE a c := by
  intro a b c
  simp only [dateLE, decide_eq_true_eq]
  omega

theorem dateLE_total : ∀ a b : NewsRow, dateLE a b || dateLE b a := by
  intro a b
  simp only [dateLE, Bool.or_eq_true, decide_eq_true_eq]
  omega

theorem length_reassignIds (l : List NewsRow) : (reassignIds l).length = l.length := by
  simp [reassignIds]

theorem reassignIds_map_id (l : List NewsRow) :
    (reassignIds l).map (·.id) = (List.range l.length).map (fun k => ((k + 1 : Nat) : Int)) := by
  simp only [reassignIds, List.map_map]
  rw [← List.enum_map_fst l, List.map_map]
  rfl

/-- Two news rows with the SAME date, one per source, exercising the
tie-breaking behaviour of the final sort. -/
def rowS1 : NewsRow :=
  { id := 101, headline := "a1", url := "http://u1", publisher := "p1",
    date := 5, symbol := none }

def rowS2 : NewsRow :=
  { id := 202, headline := "b2", url := "http://u2", publisher := "p2",
    date := 5, symbol := none }

/-- An admissible `sort_values('date')` implementation (it returns a
sorted permutation of its input) that reverses the list before a stable
sort: on equal keys it inverts the incoming order, as an unstable
quicksort may. -/
def badSorter (l : List NewsRow) : List NewsRow := l.reverse.mergeSort dateLE

theorem badSorter_spec : SortValuesDateSpec badSorter := by
  intro l
  constructor
  · exact (List.mergeSort_perm l.reverse dateLE).trans l.reverse_perm
  · exact (List.sorted_mergeSort dateLE_trans dateLE_total l.reverse).imp
      (by intro a b hab; simpa [dateLE] using hab)

/-- C1 counterexample: the equal-date order-preservation conjunct of the
claim fails.  `badSorter` satisfies everything `sort_values('date')`
(default `kind='quicksort'`, documented as not stable) guarantees, yet on
two equal-date rows the merged output does not keep the
first-source-then-second-source order of the concatenation. -/
theorem merge_datasets_stability_cex :
    SortValuesDateSpec badSorter ∧
    (mergeDatasets badSorter [rowS1] [rowS2]).filter (fun r => r.date == 5)
      ≠ (reassignIds ([rowS1] ++ [rowS2])).filter (fun r => r.date == 5) := by
  have h1 : reassignIds ([rowS1] ++ [rowS2])
      = [{ rowS1 with id := 1 }, { rowS2 with id := 2 }] := by decide
  have h2 : mergeDatasets badSorter [rowS1] [rowS2]
      = [{ rowS2 with id := 2 }, { rowS1 with id := 1 }] := by
    show badSorter (reassignIds ([rowS1] ++ [rowS2]))
      = [{ rowS2 with id := 2 }, { rowS1 with id := 1 }]
    rw [h1]
    show ([{ rowS1 with id := 1 }, { rowS2 with id := 2 }] : List NewsRow).reverse.mergeSort
      dateLE = [{ rowS2 with id := 2 }, { rowS1 with id := 1 }]
    have hrev : ([{ rowS1 with id := 1 }, { rowS2 with id := 2 }] : List NewsRow).reverse
        = [{ rowS2 with id := 2 }, { rowS1 with id := 1 }] := by decide
    rw [hrev]
    apply List.mergeSort_of_sorted
    simp [List.pairwise_cons, dateLE, rowS1, rowS2]
  refine ⟨badSorter_spec, ?_⟩
  rw [h1, h2]
  decide

/-- C1 (amended): for every sorting algorithm meeting the
`sort_values('date')` guarantee, `merge_datasets` yields n₁+n₂ rows, ids
exactly the dense integers 1..n₁+n₂ with originals discarded, and a
result sorted by date ascending; the order among equal dates is not
guaranteed, because the default sort kind is not stable. -/
theorem merge_datasets_spec (sorter : List NewsRow → List NewsRow)
    (hs : SortValuesDateSpec sorter) (analyst headlines : List NewsRow) :
    (mergeDatasets sorter analyst headlines).length
        = analyst.length + headlines.length ∧
    ((mergeDatasets sorter analyst headlines).map (·.id)).Perm
      ((List.range (analyst.length + headlines.length)).map
        (fun k => ((k + 1 : Nat) : Int))) ∧
    (mergeDatasets sorter analyst headlines).Pairwise
      (fun a b => a.date ≤ b.date) := by
  obtain ⟨hperm, hsorted⟩ := hs (reassignIds (analyst ++ headlines))
  refine ⟨?_, ?_, hsorted⟩
  · calc (mergeDatasets sorter analyst headlines).length
        = (reassignIds (analyst ++ headlines)).length := hperm.length_eq
      _ = analyst.length + headlines.length := by
          rw [length_reassignIds, List.length_append]
  · have h := hperm.map (·.id)
    rw [reassignIds_map_id, List.length_append] at h
    exact h

/-- Witness for the amended C1: the stable merge sort is one admissible
`sort_values` implementation; the conclusions evaluate at a concrete
two-row input. -/
theorem merge_datasets_spec_witness :
    (mergeDatasets (fun l => l.mergeSort dateLE) [rowS1] [rowS2]).length = 2 ∧
    (mergeDatasets (fun l => l.mergeSort dateLE) [rowS1] [rowS2]).Pairwise
      (fun a b => a.date ≤ b.date) := by
  have hs : SortValuesDateSpec (fun l => l.mergeSort dateLE) := by
    intro l
    exact ⟨List.mergeSort_perm l dateLE,
      (List.sorted_mergeSort dateLE_trans dateLE_total l).imp
        (by intro a b hab; simpa [dateLE] using hab)⟩
  have h := merge_datasets_spec (fun l => l.mergeSort dateLE) hs [rowS1] [rowS2]
  exact ⟨h.1, h.2.2⟩

/-- An HTTP response as seen by `requests.get`: status code and body text. -/
structure HttpResponse where
  status : Nat
  body : String
  deriving Repr, DecidableEq

/-- Outcome of one `requests.get` call: `Except.error` models a raised
requests exception (timeout, connection failure), `Except.ok` a response. -/
abbrev GetOutcome := Except Unit HttpResponse

/-- Network oracle for a single URL: outcome of the k-th GET attempt. -/
abbrev Network := Nat → GetOutcome

/-- Parse tree produced by BeautifulSoup: an element with tag name, class
attribute tokens and children, or a text node. -/
inductive Html where
  | elem (tag : String) (classes : List String) (children : List Html)
  | txt (s : String)
  deriving Repr

/-- Tags removed by the `element.decompose()` loop (line 139). -/
def removedTags : List String := ["script", "style", "nav", "header", "footer", "aside"]

/-- Remove every element whose tag is in `removedTags`, recursively, from a
forest of nodes. -/
def decomposeList : List Html → List Html
  | [] => []
  | Html.txt s :: rest => Html.txt s :: decomposeList rest
  | Html.elem t c ch :: rest =>
    if t ∈ removedTags then decomposeList rest
    else Html.elem t c (decomposeList ch) :: decomposeList rest

mutual
/-- All text-node strings of a node, in document order. -/
def textFragments : Html → List String
  | Html.txt s => [s]
  | Html.elem _ _ ch => textFragmentsList ch

def textFragmentsList : List Html → List String
  | [] => []
  | h :: rest => textFragments h ++ textFragmentsList rest
end

/-- `get_text(separator=sep, strip=True)`: strip each fragment, drop the
empty ones, join with the separator. -/
def getText (sep : String) (h : Html) : String :=
  String.intercalate sep (((textFragments h).map String.trim).filter (fun s => !s.isEmpty))

mutual
/-- `soup.find(...)`: first element (document pre-order) whose tag and
class tokens satisfy the predicate. -/
def findElem (p : String → List String → Bool) : Html → Option Html
  | Html.txt _ => none
  | Html.elem t c ch =>
    if p t c then some (Html.elem t c ch) else findElemList p ch

def findElemList (p : String → List String → Bool) : List Html → Option Html
  | [] => none
  | h :: rest =>
    match findElem p h with
    | some r => some r
    | none => findElemList p rest
end

mutual
/-- `soup.find_all(...)`: all matching elements in document pre-order. -/
def findAll (p : String → List String → Bool) : Html → List Html
  | Html.txt _ => []
  | Html.elem t c ch =>
    (if p t c then [Html.elem t c ch] else []) ++ findAllList p ch

def findAllList (p : String → List String → Bool) : List Html → List Html
  | [] => []
  | h :: rest => findAll p h ++ findAllList p rest
end

/-- Does the needle occur as a contiguous substring of the haystack? -/
def listContains (needle : List Char) : List Char → Bool
  | [] => needle.isEmpty
  | c :: rest => needle.isPrefixOf (c :: rest) || listContains needle rest

/-- Python's `needle in hay` on strings. -/
def strContains (hay needle : String) : Bool := listContains needle.toList hay.toList

/-- Python's `str.lower()` (character-wise lowering). -/
def strToLower (s : String) : String := ⟨s.data.map Char.toLower⟩

/-- The fixed class-name fragments of extraction strategy 2 (line 152). -/
def contentClassNames : List String :=
  ["article-body", "article-content", "entry-content", "post-content", "content-body"]

/-- Strategy 2: for each class-name fragment in order, find the first div
one of whose class tokens contains the fragment case-insensitively; first
fragment with a hit wins. -/
def findByClassFragment (soup : List Html) : List String → Option Html
  | [] => none
  | frag :: rest =>
    match findElemList
        (fun t cs => t == "div" && cs.any (fun c => strContains (strToLower c) frag)) soup with
    | some e => some e
    | none => findByClassFragment soup rest

/-- `p.get_text(strip=True)` (default empty separator). -/
def getTextStripped (h : Html) : String :=
  String.join (((textFragments h).map String.trim).filter (fun s => !s.isEmpty))

/-- `' '.join(article_text.split())`: collapse whitespace runs. -/
def normalizeWhitespace (s : String) : String :=
  String.intercalate " " ((s.split Char.isWhitespace).filter (fun t => !t.isEmpty))

/-- The extraction pipeline of `scrape_article` on a parsed document
(lines 136–168): decompose non-content tags, then try the `<article>`
element, the class-fragment divs, and finally all `<p>` texts; normalize
whitespace and truncate to 10000 characters. -/
def extractArticleText (doc : Html) : String :=
  let soup := decomposeList [doc]
  let s1 :=
    match findElemList (fun t _ => t == "article") soup with
    | some a => getText " " a
    | none => ""
  let s2 :=
    if s1.isEmpty then
      match findByClassFragment soup contentClassNames with
      | some d => getText " " d
      | none => ""
    else s1
  let s3 :=
    if s2.isEmpty then
      match findAllList (fun t _ => t == "p") soup with
      | [] => ""
      | ps => String.intercalate " " (ps.map getTextStripped)
    else s2
  (normalizeWhitespace s3).take 10000

/-- The retry loop of `scrape_article` (lines 126–130): up to 3 GET
attempts, breaking on status 200, `sleep(1)` after every failed attempt
(including the third).  Returns the final response (`none` when an attempt
raised, aborting the loop), the number of GET requests issued, and the
number of sleeps performed. -/
def requestLoop (net : Network) : Option HttpResponse × Nat × Nat :=
  match net 0 with
  | Except.error _ => (none, 1, 0)
  | Except.ok r0 =>
    if r0.status == 200 then (some r0, 1, 0)
    else
      match net 1 with
      | Except.error _ => (none, 2, 1)
      | Except.ok r1 =>
        if r1.status == 200 then (some r1, 2, 1)
        else
          match net 2 with
          | Except.error _ => (none, 3, 2)
          | Except.ok r2 => (some r2, 3, 3)

/-- `scrape_article(url, publisher)` (lines 104–172), with the network and
the BeautifulSoup parser as oracles.  Returns the article text together
with the GET-attempt and sleep counts.  Every exception inside the body is
caught by the enclosing `try`/`except`, which returns the empty string, so
the function is total.  The `publisher` parameter is accepted but never
read by the body. -/
def scrapeArticle (net : Network) (parse : String → Html)
    (url : String) (publisher : String) : String × Nat × Nat :=
  match requestLoop net with
  | (none, n, s) => ("", n, s)
  | (some r, n, s) =>
    if r.status != 200 then ("", n, s)
    else (extractArticleText (parse r.body), n, s)

/-- C3: on an endpoint that persistently answers with a non-200 status,
`scrape_article` issues exactly 3 GET attempts, with a fixed 1-second
back-off after each failed attempt (hence between consecutive attempts),
and returns the empty string; it is a total function, never propagating an
exception past its boundary. -/
theorem scrape_article_persistent_non200 (net : Network) (parse : String → Html)
    (url publisher : String)
    (hfail : ∀ k, ∃ r, net k = Except.ok r ∧ r.status ≠ 200) :
    scrapeArticle net parse url publisher = ("", 3, 3) := by
  obtain ⟨r0, h0, s0⟩ := hfail 0
  obtain ⟨r1, h1, s1⟩ := hfail 1
  obtain ⟨r2, h2, s2⟩ := hfail 2
  simp [scrapeArticle, requestLoop, h0, h1, h2, s0, s1, s2]

/-- Witness for C3 at a concrete always-404 endpoint. -/
theorem scrape_article_persistent_non200_witness :
    scrapeArticle (fun _ => Except.ok ⟨404, ""⟩) (fun _ => Html.txt "") "http://x" "pub"
      = ("", 3, 3) :=
  scrape_article_persistent_non200 _ _ _ _
    (fun _ => ⟨⟨404, ""⟩, rfl, by decide⟩)

/-- C10: for a fixed URL and fixed network behaviour the result of
`scrape_article` is identical for any two publisher values — no branch of
fetching, extraction or post-processing reads the publisher. -/
theorem scrape_article_publisher_independent (net : Network) (parse : String → Html)
    (url p1 p2 : String) :
    scrapeArticle net parse url p1 = scrapeArticle net parse url p2 := rfl

/-- One canonical daily OHLCV bar (`date, symbol, open, high, low, close,
volume`); `open` is spelled `open_` because it is a Lean keyword. -/
structure Bar where
  date : Nat
  symbol : String
  open_ : ℚ
  high : ℚ
  low : ℚ
  close : ℚ
  volume : Int
  deriving Repr, DecidableEq

/-- One row of the raw frame returned by `ticker.history` (yfinance field
names, before the `rename`). -/
structure RawBar where
  Date : Nat
  Open : ℚ
  High : ℚ
  Low : ℚ
  Close : ℚ
  Volume : Int
  deriving Repr, DecidableEq

/-- Normalization of one symbol's raw history (lines 66–82): rename the
source fields to the canonical column set, attach the symbol (the alias
`s&p` for the `^GSPC` index), keep only the canonical columns. -/
def normalizeBars (symbol : String) (raw : List RawBar) : List Bar :=
  raw.map (fun b =>
    { date := b.Date
      symbol := if symbol == "^GSPC" then "s&p" else symbol
      open_ := b.Open, high := b.High, low := b.Low, close := b.Close
      volume := b.Volume })

/-- Oracle for `yf.Ticker(sym).history(start, end)`: `Except.error` models
a raised exception, `Except.ok` the (possibly empty) bar frame. -/
abbrev PriceFetch := String → String → String → Except Unit (List RawBar)

/-- `list(set(symbols))`: deduplication (Python set order is arbitrary;
the claims below are order-insensitive). -/
def pySetList (l : List String) : List String := l.dedup

/-- What one loop iteration of `download_historical_prices` contributes:
`none` when the fetch raised or came back empty (the symbol is skipped),
otherwise the normalized bars. -/
def fetchedBars (fetch : PriceFetch) (startDate endDate sym : String) :
    Option (List Bar) :=
  match fetch sym startDate endDate with
  | Except.error _ => none
  | Except.ok raw => if raw.isEmpty then none else some (normalizeBars sym raw)

/-- `sort_values(['date', 'symbol'])` comparison. -/
def barLE (a b : Bar) : Bool :=
  decide (a.date < b.date) || (decide (a.date = b.date) && decide (a.symbol ≤ b.symbol))

/-- `download_historical_prices(symbols, start_date, end_date)`
(lines 35–101): dedup the symbols, append the `^GSPC` index proxy, fetch
each, skipping raised or empty fetches (the latter with a warning),
concatenate and sort by (date, symbol); raise `ValueError` when no symbol
produced data.  Returns (warned symbols, result). -/
def downloadHistoricalPrices (fetch : PriceFetch) (symbols : List String)
    (startDate endDate : String) : List String × Except String (List Bar) :=
  let allSymbols := pySetList symbols ++ ["^GSPC"]
  let warnings := allSymbols.filter (fun sym =>
    match fetch sym startDate endDate with
    | Except.ok raw => raw.isEmpty
    | Except.error _ => false)
  let allData := allSymbols.filterMap (fetchedBars fetch startDate endDate)
  (warnings,
    if allData = [] then Except.error "No historical price data could be downloaded"
    else Except.ok (allData.flatten.mergeSort barLE))

/-- C2: `download_historical_prices` skips raised and empty fetches
(warning the latter), errors exactly when zero symbols produced data, and
otherwise returns exactly the successful symbols' normalized bars. -/
theorem download_historical_prices_spec (fetch : PriceFetch)
    (symbols : List String) (startDate endDate : String) :
    ((downloadHistoricalPrices fetch symbols startDate endDate).2
        = Except.error "No historical price data could be downloaded"
      ↔ ∀ sym ∈ pySetList symbols ++ ["^GSPC"],
          fetchedBars fetch startDate endDate sym = none) ∧
    (∀ t, (downloadHistoricalPrices fetch symbols startDate endDate).2 = Except.ok t →
      t.Perm ((pySetList symbols ++ ["^GSPC"]).filterMap
        (fetchedBars fetch startDate endDate)).flatten) ∧
    (∀ sym ∈ pySetList symbols ++ ["^GSPC"],
      fetch sym startDate endDate = Except.ok [] →
      sym ∈ (downloadHistoricalPrices fetch symbols startDate endDate).1) := by
  have hsnd : (downloadHistoricalPrices fetch symbols startDate endDate).2
      = if ((pySetList symbols ++ ["^GSPC"]).filterMap
              (fetchedBars fetch startDate endDate)) = []
        then Except.error "No historical price data could be downloaded"
        else Except.ok (((pySetList symbols ++ ["^GSPC"]).filterMap
                (fetchedBars fetch startDate endDate)).flatten.mergeSort barLE) := rfl
  have hfst : (downloadHistoricalPrices fetch symbols startDate endDate).1
      = (pySetList symbols ++ ["^GSPC"]).filter (fun sym =>
          match fetch sym startDate endDate with
          | Except.ok raw => raw.isEmpty
          | Except.error _ => false) := rfl
  refine ⟨?_, ?_, ?_⟩
  · rw [hsnd]
    by_cases hA : ((pySetList symbols ++ ["^GSPC"]).filterMap
        (fetchedBars fetch startDate endDate)) = []
    · rw [if_pos hA]
      exact iff_of_true rfl (List.filterMap_eq_nil_iff.mp hA)
    · rw [if_neg hA]
      exact iff_of_false (fun h => Except.noConfusion h)
        (fun hall => hA (List.filterMap_eq_nil_iff.mpr hall))
  · intro t ht
    rw [hsnd] at ht
    by_cases hA : ((pySetList symbols ++ ["^GSPC"]).filterMap
        (fetchedBars fetch startDate endDate)) = []
    · rw [if_pos hA] at ht
      exact Except.noConfusion ht
    · rw [if_neg hA] at ht
      obtain rfl : _ = t := Except.ok.inj ht
      exact List.mergeSort_perm _ _
  · intro sym hmem hempty
    rw [hfst, List.mem_filter]
    refine ⟨hmem, ?_⟩
    rw [hempty]
    rfl

/-- Concrete fetch oracle for the C2 witness: symbol AAA has two bars,
every other symbol (including the index) comes back empty. -/
def fetchW : PriceFetch := fun sym _ _ =>
  if sym = "AAA" then
    Except.ok [⟨10, 1, 2, 1, 2, 5⟩, ⟨11, 2, 3, 2, 3, 6⟩]
  else Except.ok []

/-- Witness for C2: with one data-bearing symbol and one empty symbol, the
empty one is warned about and the call does not raise. -/
theorem download_historical_prices_witness :
    "BBB" ∈ (downloadHistoricalPrices fetchW ["AAA", "BBB"] "s" "e").1 ∧
    (downloadHistoricalPrices fetchW ["AAA", "BBB"] "s" "e").2
      ≠ Except.error "No historical price data could be downloaded" := by
  have h := download_historical_prices_spec fetchW ["AAA", "BBB"] "s" "e"
  refine ⟨h.2.2 "BBB" (by decide) rfl, fun hc => ?_⟩
  have hAAA := (h.1.mp hc) "AAA" (by decide)
  simp [fetchedBars, fetchW] at hAAA

/-- The pure core of `download_articles(news_df, delay)` (lines 175–215):
walk the rows, append the empty string for denylisted (gurufocus) URLs
without calling `scrape_article`, otherwise record the scraped text; the
second component is the list of URLs for which `scrape_article` was
invoked (each invocation issues at least one network request). -/
def downloadArticlesRows (scrape : String → String → String) :
    List NewsRow → List (NewsRow × String) × List String
  | [] => ([], [])
  | row :: rest =>
    let res := downloadArticlesRows scrape rest
    if strContains (strToLower row.url) "gurufocus" then
      ((row, "") :: res.1, res.2)
    else
      ((row, scrape row.url row.publisher) :: res.1, row.url :: res.2)

/-- C5: rows are kept in order; no network request is ever issued for a
denylisted URL; every denylisted row gets the empty string as its article
text. -/
theorem download_articles_denylist (scrape : String → String → String)
    (rows : List NewsRow) :
    ((downloadArticlesRows scrape rows).1.map Prod.fst = rows) ∧
    (∀ u ∈ (downloadArticlesRows scrape rows).2,
        strContains (strToLower u) "gurufocus" = false) ∧
    (∀ pr ∈ (downloadArticlesRows scrape rows).1,
        strContains (strToLower pr.1.url) "gurufocus" = true → pr.2 = "") := by
  induction rows with
  | nil => simp [downloadArticlesRows]
  | cons r rest ih =>
    obtain ⟨ih1, ih2, ih3⟩ := ih
    by_cases h : strContains (strToLower r.url) "gurufocus" = true
    · refine ⟨by simp [downloadArticlesRows, h, ih1], ?_, ?_⟩
      · simpa [downloadArticlesRows, h] using ih2
      · intro pr hpr
        simp only [downloadArticlesRows, h, if_true, List.mem_cons] at hpr
        rcases hpr with rfl | hpr
        · intro _; rfl
        · exact ih3 pr hpr
    · rw [Bool.not_eq_true] at h
      refine ⟨by simp [downloadArticlesRows, h, ih1], ?_, ?_⟩
      · intro u hu
        simp only [downloadArticlesRows, h, Bool.false_eq_true, if_false,
          List.mem_cons] at hu
        rcases hu with rfl | hu
        · exact h
        · exact ih2 u hu
      · intro pr hpr
        simp only [downloadArticlesRows, h, Bool.false_eq_true, if_false,
          List.mem_cons] at hpr
        rcases hpr with rfl | hpr
        · intro hc; rw [h] at hc; cases hc
        · exact ih3 pr hpr

/-- A concrete denylisted row for the C5 witness. -/
def guruRow : NewsRow :=
  { id := 7, headline := "h", url := "http://www.GuruFocus.com/news/1",
    publisher := "GuruFocus", date := 3, symbol := some "AAA" }

/-- Witness for C5: a gurufocus row produces the empty string and its URL
triggers no request. -/
theorem download_articles_denylist_witness :
    ((downloadArticlesRows (fun _ _ => "SCRAPED") [guruRow]).1.map Prod.fst
       = [guruRow]) ∧
    (((guruRow, "") : NewsRow × String).2 = "") ∧
    (downloadArticlesRows (fun _ _ => "SCRAPED") [guruRow]).2 = [] :=
  ⟨(download_articles_denylist (fun _ _ => "SCRAPED") [guruRow]).1,
   (download_articles_denylist (fun _ _ => "SCRAPED") [guruRow]).2.2
     (guruRow, "") (by decide) (by decide),
   by decide⟩

/-- A pandas object reference: index into the heap of live frames. -/
abbrev Ref := Nat

/-- The frames held by pipeline stages: a raw yfinance history frame, a
news table before / after the article column is attached, and a
normalized price table. -/
inductive Frame where
  | raw (rows : List RawBar)
  | news (rows : List NewsRow)
  | newsArt (rows : List (NewsRow × String))
  | prices (rows : List Bar)
  deriving Repr, DecidableEq

/-- `download_articles` at the object level (lines 175–215):
`news_df['article'] = articles` assigns the new column in place on the
caller's frame, and the function returns that same frame object. -/
def downloadArticlesRef (scrape : String → String → String) (r : Ref)
    (heap : List Frame) : Ref × List Frame :=
  match heap[r]? with
  | some (Frame.news rows) =>
      (r, heap.set r (Frame.newsArt (downloadArticlesRows scrape rows).1))
  | _ => (r, heap)

/-- `merge_datasets` at the object level: it reads the two stub tables
from disk (holding no reference into the caller's heap), builds the
merged frame, attaches articles to its own local frame, and hands the
caller a freshly allocated frame. -/
def mergeDatasetsRef (sorter : List NewsRow → List NewsRow)
    (scrape : String → String → String)
    (analyst headlines : List NewsRow) (heap : List Frame) : Ref × List Frame :=
  (heap.length,
   heap ++ [Frame.newsArt
      (downloadArticlesRows scrape (mergeDatasets sorter analyst headlines)).1])

/-- The normalization of one symbol's raw history at the object level
(lines 66–82): the raw frame fetched from yfinance sits in the heap;
`reset_index` and `rename` copy it, the symbol column is assigned only on
the local copy, and the canonical projection is handed back as a freshly
allocated frame — the raw input frame is left unchanged. -/
def normalizeBarsRef (symbol : String) (r : Ref) (heap : List Frame) :
    Ref × List Frame :=
  match heap[r]? with
  | some (Frame.raw rows) =>
      (heap.length, heap ++ [Frame.prices (normalizeBars symbol rows)])
  | _ => (r, heap)

/-- C6 counterexample: `download_articles` does NOT leave its input table
unchanged — after the call the caller's frame has gained the article
column (and the returned table is that same object, not a new one). -/
theorem download_articles_mutation_cex :
    (downloadArticlesRef (fun _ _ => "A") 0 [Frame.news [guruRow]]).2[0]?
      ≠ [Frame.news [guruRow]][0]? ∧
    (downloadArticlesRef (fun _ _ => "A") 0 [Frame.news [guruRow]]).1 = 0 := by
  decide

/-- C6 amended: dataset merging and price normalization each hand back a
freshly allocated frame and leave every existing frame (in particular
their input tables) unchanged, but article attachment returns its own
input reference with the article column assigned in place on that
frame. -/
theorem pipeline_frame_discipline (sorter : List NewsRow → List NewsRow)
    (scrape : String → String → String) (sym : String)
    (analyst headlines : List NewsRow) (r rp : Ref) (heap : List Frame)
    (rows : List NewsRow) (raws : List RawBar)
    (hr : heap[r]? = some (Frame.news rows))
    (hrp : heap[rp]? = some (Frame.raw raws)) :
    ((downloadArticlesRef scrape r heap).1 = r ∧
     (downloadArticlesRef scrape r heap).2[r]?
        = some (Frame.newsArt (downloadArticlesRows scrape rows).1) ∧
     ∀ q, q ≠ r → (downloadArticlesRef scrape r heap).2[q]? = heap[q]?) ∧
    ((mergeDatasetsRef sorter scrape analyst headlines heap).1 = heap.length ∧
     ∀ q, q < heap.length →
        (mergeDatasetsRef sorter scrape analyst headlines heap).2[q]?
          = heap[q]?) ∧
    ((normalizeBarsRef sym rp heap).1 = heap.length ∧
     (normalizeBarsRef sym rp heap).2[heap.length]?
        = some (Frame.prices (normalizeBars sym raws)) ∧
     ∀ q, q < heap.length → (normalizeBarsRef sym rp heap).2[q]? = heap[q]?) := by
  have hlt : r < heap.length := by
    by_contra hge
    rw [List.getElem?_eq_none (Nat.le_of_not_lt hge)] at hr
    exact Option.noConfusion hr
  refine ⟨⟨?_, ?_, ?_⟩, ⟨rfl, ?_⟩, ?_, ?_, ?_⟩
  · simp [downloadArticlesRef, hr]
  · simp only [downloadArticlesRef, hr]
    rw [List.getElem?_set_self (by simpa using hlt)]
  · intro q hq
    simp only [downloadArticlesRef, hr]
    exact List.getElem?_set_ne (fun h => hq h.symm)
  · intro q hq
    exact List.getElem?_append_left hq
  · simp [normalizeBarsRef, hrp]
  · simp only [normalizeBarsRef, hrp]
    rw [List.getElem?_append_right (Nat.le_refl _)]
    simp
  · intro q hq
    simp only [normalizeBarsRef, hrp]
    exact List.getElem?_append_left hq

/-- A concrete heap holding one news frame and one raw price frame. -/
def heapW : List Frame :=
  [Frame.news [guruRow], Frame.raw [⟨0, 1, 1, 1, 1, 1⟩]]

/-- Witness for the amended C6 at the concrete two-frame heap. -/
theorem pipeline_frame_discipline_witness :
    (downloadArticlesRef (fun _ _ => "A") 0 heapW).1 = 0 ∧
    (downloadArticlesRef (fun _ _ => "A") 0 heapW).2[0]?
      = some (Frame.newsArt [(guruRow, "")]) ∧
    (downloadArticlesRef (fun _ _ => "A") 0 heapW).2[1]? = heapW[1]? ∧
    (mergeDatasetsRef (fun l => l.mergeSort dateLE) (fun _ _ => "A")
        [] [] heapW).1 = 2 ∧
    (mergeDatasetsRef (fun l => l.mergeSort dateLE) (fun _ _ => "A")
        [] [] heapW).2[0]? = heapW[0]? ∧
    (normalizeBarsRef "AAA" 1 heapW).1 = 2 ∧
    (normalizeBarsRef "AAA" 1 heapW).2[1]? = heapW[1]? := by
  have h := pipeline_frame_discipline (fun l => l.mergeSort dateLE)
    (fun _ _ => "A") "AAA" [] [] 0 1 heapW [guruRow] [⟨0, 1, 1, 1, 1, 1⟩] rfl rfl
  refine ⟨h.1.1, ?_, h.1.2.2 1 (by decide), h.2.1.1, h.2.1.2 0 (by decide),
    h.2.2.1, h.2.2.2.2 1 (by decide)⟩
  rw [h.1.2.1]
  decide

/-- One pandera failure case, as surfaced by a lazy validation pass
(compare `test_dataset_schema.py`, lines 55–62: column, row index,
offending value, failed check). -/
structure Violation where
  column : String
  rowIndex : Nat
  value : String
  check : String
  deriving Repr, DecidableEq

/-- Observable events of a `main()` run, in order.  `fatal` is an uncaught
exception aborting the process; `fetchPrice`/`fetchArticle` are outbound
network requests. -/
inductive Event where
  | errMissingFile (name : String)
  | fatal (msg : String)
  | fetchPrice (symbol : String)
  | warnEmpty (symbol : String)
  | fetchArticle (url : String)
  | validationReport (artifact : String) (violations : List Violation)
  | saved (artifact : String)
  deriving Repr, DecidableEq

/-- A provided stub CSV: its header (column set) and its rows.  A missing
column is header-level metadata; row records carry every typed field. -/
structure StubFile where
  cols : List String
  rows : List NewsRow
  deriving Repr

/-- The column set `merge_datasets` projects onto (line 239). -/
def requiredCols : List String := ["id", "headline", "URL", "publisher", "date", "symbol"]

/-- Does a stub file have every required column? (`df[required_cols]`
raises `KeyError` otherwise.) -/
def hasRequiredCols (s : StubFile) : Bool :=
  requiredCols.all (fun c => s.cols.contains c)

/-- The external world `main()` runs against: the two optional input
files, the yfinance oracle, the per-URL network and parser oracles for
scraping, the pandera verdict for a frame, and the unspecified sorting
algorithm behind `sort_values('date')`. -/
structure MainWorld where
  analyst : Option StubFile
  headlines : Option StubFile
  fetch : PriceFetch
  net : String → Network
  parse : String → Html
  validate : Frame → List Violation
  sorter : List NewsRow → List NewsRow

/-- `symbols = list(set(analyst['symbol'].dropna().unique() +
headlines['symbol'].dropna().unique()))` (lines 309–312). -/
def newsSymbols (analyst headlines : StubFile) : List String :=
  pySetList (analyst.rows.filterMap NewsRow.symbol
    ++ headlines.rows.filterMap NewsRow.symbol)

/-- The network-visible part of the `download_historical_prices` loop:
one price request per symbol, and a warning for each empty result. -/
def priceFetchEvents (fetch : PriceFetch) (startDate endDate : String) :
    List String → List Event
  | [] => []
  | sym :: rest =>
    (Event.fetchPrice sym ::
      (match fetch sym startDate endDate with
       | Except.ok [] => [Event.warnEmpty sym]
       | _ => []))
      ++ priceFetchEvents fetch startDate endDate rest

/-- `main()` (lines 268–356) as a trace of events.  Absent input files are
reported and end the run (`return`).  Accessing the `symbol` column of a
stub that lacks it raises `KeyError` before any network activity; a
stub lacking any other required column raises only inside
`merge_datasets` (line 243), after prices were fetched, validated and
saved.  Schema validation is wrapped in `try`/`except` (lines 321–325,
340–344): its verdict is reported and the artifact saved regardless. -/
def mainRun (w : MainWorld) : List Event :=
  match w.analyst with
  | none => [Event.errMissingFile "analyst_ratings.csv"]
  | some analyst =>
    match w.headlines with
    | none => [Event.errMissingFile "headlines.csv"]
    | some headlines =>
      if "symbol" ∈ analyst.cols ∧ "symbol" ∈ headlines.cols then
        let symbols := newsSymbols analyst headlines
        let allSymbols := pySetList symbols ++ ["^GSPC"]
        let fetchEvents := priceFetchEvents w.fetch "2009-01-01" "2020-12-31" allSymbols
        match (downloadHistoricalPrices w.fetch symbols "2009-01-01" "2020-12-31").2 with
        | Except.error msg => fetchEvents ++ [Event.fatal msg]
        | Except.ok prices =>
          let ev1 := fetchEvents
            ++ [Event.validationReport "historical_prices" (w.validate (Frame.prices prices)),
                Event.saved "historical_prices"]
          if hasRequiredCols analyst && hasRequiredCols headlines then
            let scrape := fun url pub => (scrapeArticle (w.net url) w.parse url pub).1
            let arts := downloadArticlesRows scrape
              (mergeDatasets w.sorter analyst.rows headlines.rows)
            ev1 ++ arts.2.map Event.fetchArticle
              ++ [Event.validationReport "all_news" (w.validate (Frame.newsArt arts.1)),
                  Event.saved "all_news"]
          else
            ev1 ++ [Event.fatal "KeyError"]
      else [Event.fatal "KeyError"]

/-- Which input files each output artifact needs: `historical_prices`
takes its symbol list from both stub files, `all_news` merges both. -/
def artifactDeps : String → List String
  | "historical_prices" => ["analyst_ratings.csv", "headlines.csv"]
  | "all_news" => ["analyst_ratings.csv", "headlines.csv"]
  | _ => []

/-- The input files present in a world. -/
def presentFiles (w : MainWorld) : List String :=
  (if w.analyst.isSome then ["analyst_ratings.csv"] else [])
    ++ (if w.headlines.isSome then ["headlines.csv"] else [])

/-- C7: when a required input file is absent the run reports an absent
file, and exactly the artifacts whose input dependencies are all present
are produced — here every artifact depends on both stub files, so none
is. -/
theorem presentFiles_analyst_none (w : MainWorld) (h : w.analyst = none) :
    "analyst_ratings.csv" ∉ presentFiles w := by
  unfold presentFiles
  rw [h]
  simp only [Option.isSome_none, Bool.false_eq_true, if_false, List.nil_append]
  split <;> simp

theorem presentFiles_headlines_none (w : MainWorld) (h : w.headlines = none) :
    "headlines.csv" ∉ presentFiles w := by
  unfold presentFiles
  rw [h]
  simp only [Option.isSome_none, Bool.false_eq_true, if_false, List.append_nil]
  split <;> simp

theorem missing_input_per_artifact (w : MainWorld)
    (hmiss : w.analyst = none ∨ w.headlines = none) :
    (∃ f, Event.errMissingFile f ∈ mainRun w ∧ f ∉ presentFiles w) ∧
    (∀ a, Event.saved a ∈ mainRun w ↔
      (artifactDeps a ≠ [] ∧ artifactDeps a ⊆ presentFiles w)) := by
  have hbad : ∀ a : String, ¬(artifactDeps a ≠ [] ∧ artifactDeps a ⊆ presentFiles w) := by
    rintro a ⟨hne, hsub⟩
    have hd : artifactDeps a = []
        ∨ artifactDeps a = ["analyst_ratings.csv", "headlines.csv"] := by
      unfold artifactDeps
      split <;> simp
    rcases hd with hd | hd
    · exact hne hd
    · rcases hmiss with h | h
      · exact presentFiles_analyst_none w h
          (hsub (by rw [hd]; exact List.mem_cons_self _ _))
      · exact presentFiles_headlines_none w h (hsub (by rw [hd]; simp))
  obtain ⟨f, hm⟩ : ∃ f, mainRun w = [Event.errMissingFile f] ∧ f ∉ presentFiles w := by
    rcases ha : w.analyst with _ | analyst
    · exact ⟨"analyst_ratings.csv", by simp [mainRun, ha],
        presentFiles_analyst_none w ha⟩
    · rcases hmiss with h | h
      · rw [ha] at h
        exact Option.noConfusion h
      · exact ⟨"headlines.csv", by simp [mainRun, ha, h],
          presentFiles_headlines_none w h⟩
  refine ⟨⟨f, by rw [hm.1]; exact List.mem_cons_self _ _, hm.2⟩, fun a => ?_⟩
  constructor
  · intro hs
    rw [hm.1] at hs
    simp at hs
  · intro hc
    exact absurd hc (hbad a)

/-- Price-loop events are only `fetchPrice` and `warnEmpty`: no article
request is ever issued by the price stage. -/
theorem fetchArticle_not_mem_priceFetchEvents (fetch : PriceFetch)
    (s e : String) (syms : List String) (url : String) :
    Event.fetchArticle url ∉ priceFetchEvents fetch s e syms := by
  induction syms with
  | nil => simp [priceFetchEvents]
  | cons a rest ih =>
    intro hmem
    simp only [priceFetchEvents, List.cons_append, List.mem_cons,
      List.mem_append] at hmem
    rcases hmem with h | h | h
    · exact Event.noConfusion h
    · revert h
      cases hf : fetch a s e with
      | error u => simp
      | ok raw => cases raw <;> simp
    · exact ih h

/-- C4: when validation of a stage's output fails, the full lazy
violation report is emitted, the artifact is still persisted, and the
subsequent stage still runs and persists its own artifact. -/
theorem validation_nonfatal (w : MainWorld) (analyst headlines : StubFile)
    (ha : w.analyst = some analyst) (hh : w.headlines = some headlines)
    (hcols : "symbol" ∈ analyst.cols ∧ "symbol" ∈ headlines.cols)
    (hreq : (hasRequiredCols analyst && hasRequiredCols headlines) = true)
    (hne : (pySetList (newsSymbols analyst headlines) ++ ["^GSPC"]).filterMap
        (fetchedBars w.fetch "2009-01-01" "2020-12-31") ≠ []) :
    (∃ prices, (downloadHistoricalPrices w.fetch (newsSymbols analyst headlines)
          "2009-01-01" "2020-12-31").2 = Except.ok prices ∧
      Event.validationReport "historical_prices" (w.validate (Frame.prices prices))
        ∈ mainRun w) ∧
    Event.saved "historical_prices" ∈ mainRun w ∧
    Event.saved "all_news" ∈ mainRun w := by
  have hok : (downloadHistoricalPrices w.fetch (newsSymbols analyst headlines)
        "2009-01-01" "2020-12-31").2
      = Except.ok (((pySetList (newsSymbols analyst headlines) ++ ["^GSPC"]).filterMap
          (fetchedBars w.fetch "2009-01-01" "2020-12-31")).flatten.mergeSort barLE) := by
    have hd : (downloadHistoricalPrices w.fetch (newsSymbols analyst headlines)
          "2009-01-01" "2020-12-31").2
        = if (pySetList (newsSymbols analyst headlines) ++ ["^GSPC"]).filterMap
              (fetchedBars w.fetch "2009-01-01" "2020-12-31") = []
          then Except.error "No historical price data could be downloaded"
          else Except.ok (((pySetList (newsSymbols analyst headlines)
              ++ ["^GSPC"]).filterMap
                (fetchedBars w.fetch "2009-01-01" "2020-12-31")).flatten.mergeSort
              barLE) := rfl
    rw [hd, if_neg hne]
  refine ⟨⟨_, hok, ?_⟩, ?_, ?_⟩ <;>
  · simp only [mainRun, ha, hh]
    rw [if_pos hcols]
    simp only [hok, hreq, if_true]
    simp

/-- A violation report with a named column, row index, value and check. -/
def vioNeg : Violation :=
  { column := "volume", rowIndex := 0, value := "-5", check := "ge(0)" }

/-- A well-formed empty stub file. -/
def stubOk : StubFile := { cols := requiredCols, rows := [] }

/-- A world whose inputs are fine but whose validator reports a
violation for every frame. -/
def worldBadSchema : MainWorld :=
  { analyst := some stubOk, headlines := some stubOk,
    fetch := fun _ _ _ => Except.ok [⟨0, 1, 1, 1, 1, 1⟩],
    net := fun _ _ => Except.error (),
    parse := fun _ => Html.txt "",
    validate := fun _ => [vioNeg],
    sorter := fun l => l.mergeSort dateLE }

/-- Witness for C4: the failing validation is reported and both artifacts
are still saved. -/
theorem validation_nonfatal_witness :
    Event.saved "historical_prices" ∈ mainRun worldBadSchema ∧
    Event.saved "all_news" ∈ mainRun worldBadSchema :=
  ⟨(validation_nonfatal worldBadSchema stubOk stubOk rfl rfl
      ⟨by decide, by decide⟩ rfl (by decide)).2.1,
   (validation_nonfatal worldBadSchema stubOk stubOk rfl rfl
      ⟨by decide, by decide⟩ rfl (by decide)).2.2⟩

/-- A trivial world with both input files absent. -/
def worldNoFiles : MainWorld :=
  { analyst := none, headlines := none,
    fetch := fun _ _ _ => Except.error (),
    net := fun _ _ => Except.error (),
    parse := fun _ => Html.txt "",
    validate := fun _ => [],
    sorter := fun l => l.mergeSort dateLE }

/-- Witness for C7: with the analyst file absent, the absence is reported
and neither artifact (each depending on the absent file) is produced. -/
theorem missing_input_per_artifact_witness :
    Event.errMissingFile "analyst_ratings.csv" ∈ mainRun worldNoFiles ∧
    Event.saved "historical_prices" ∉ mainRun worldNoFiles ∧
    Event.saved "all_news" ∉ mainRun worldNoFiles := by
  have h := missing_input_per_artifact worldNoFiles (Or.inl rfl)
  refine ⟨by decide, fun hs => ?_, fun hs => ?_⟩
  · rcases (h.2 "historical_prices").mp hs with ⟨_, hsub⟩
    have := hsub (show "analyst_ratings.csv" ∈ artifactDeps "historical_prices" by decide)
    revert this
    decide
  · rcases (h.2 "all_news").mp hs with ⟨_, hsub⟩
    have := hsub (show "analyst_ratings.csv" ∈ artifactDeps "all_news" by decide)
    revert this
    decide

/-- A stub file lacking the required `URL` column (but having `symbol`). -/
def stubNoURL : StubFile :=
  { cols := ["id", "headline", "publisher", "date", "symbol"], rows := [] }

/-- A world whose analyst stub lacks the `URL` column; the price provider
answers every symbol with one bar. -/
def worldMalformed : MainWorld :=
  { analyst := some stubNoURL, headlines := some stubOk,
    fetch := fun _ _ _ => Except.ok [⟨0, 1, 1, 1, 1, 1⟩],
    net := fun _ _ => Except.error (),
    parse := fun _ => Html.txt "",
    validate := fun _ => [],
    sorter := fun l => l.mergeSort dateLE }

/-- C8 counterexample: with a stub file missing the required `URL`
column, the run does fail fatally — but a price download request is
issued before the failure, contradicting the claim that no network
activity precedes the report of a malformed stub. -/
theorem malformed_stub_cex :
    hasRequiredCols stubNoURL = false ∧
    Event.fetchPrice "^GSPC" ∈ mainRun worldMalformed ∧
    (mainRun worldMalformed).getLast? = some (Event.fatal "KeyError") := by
  decide

/-- C8 amended: a stub missing a required column makes the run fail
fatally and no article request is ever issued; the failure precedes all
network activity only when the missing column is `symbol` — otherwise the
price downloads have already run by the time the merge stage raises. -/
theorem malformed_stub_behaviour (w : MainWorld) (analyst headlines : StubFile)
    (ha : w.analyst = some analyst) (hh : w.headlines = some headlines)
    (hmal : hasRequiredCols analyst = false ∨ hasRequiredCols headlines = false) :
    (∃ msg, (mainRun w).getLast? = some (Event.fatal msg)) ∧
    (∀ url, Event.fetchArticle url ∉ mainRun w) ∧
    (("symbol" ∉ analyst.cols ∨ "symbol" ∉ headlines.cols) →
      ∀ s, Event.fetchPrice s ∉ mainRun w) := by
  by_cases hsym : "symbol" ∈ analyst.cols ∧ "symbol" ∈ headlines.cols
  · have hreq : (hasRequiredCols analyst && hasRequiredCols headlines) = false := by
      rcases hmal with h | h <;> simp [h]
    cases hdl : (downloadHistoricalPrices w.fetch (newsSymbols analyst headlines)
        "2009-01-01" "2020-12-31").2 with
    | error msg =>
      have hrun : mainRun w = priceFetchEvents w.fetch "2009-01-01" "2020-12-31"
          (pySetList (newsSymbols analyst headlines) ++ ["^GSPC"])
          ++ [Event.fatal msg] := by
        simp only [mainRun, ha, hh]
        rw [if_pos hsym]
        simp only [hdl]
      refine ⟨⟨msg, by rw [hrun]; exact List.getLast?_concat _⟩, ?_, ?_⟩
      · intro url hmem
        rw [hrun] at hmem
        rcases List.mem_append.mp hmem with h | h
        · exact fetchArticle_not_mem_priceFetchEvents _ _ _ _ _ h
        · simp at h
      · intro hns
        rcases hns with h | h
        · exact absurd hsym.1 h
        · exact absurd hsym.2 h
    | ok prices =>
      have hrun : mainRun w = (priceFetchEvents w.fetch "2009-01-01" "2020-12-31"
          (pySetList (newsSymbols analyst headlines) ++ ["^GSPC"])
          ++ [Event.validationReport "historical_prices"
                (w.validate (Frame.prices prices)),
              Event.saved "historical_prices"])
          ++ [Event.fatal "KeyError"] := by
        simp only [mainRun, ha, hh]
        rw [if_pos hsym]
        simp only [hdl, hreq, Bool.false_eq_true, if_false]
      refine ⟨⟨"KeyError", by rw [hrun]; exact List.getLast?_concat _⟩, ?_, ?_⟩
      · intro url hmem
        rw [hrun] at hmem
        rcases List.mem_append.mp hmem with h | h
        · rcases List.mem_append.mp h with h | h
          · exact fetchArticle_not_mem_priceFetchEvents _ _ _ _ _ h
          · simp at h
        · simp at h
      · intro hns
        rcases hns with h | h
        · exact absurd hsym.1 h
        · exact absurd hsym.2 h
  · have hrun : mainRun w = [Event.fatal "KeyError"] := by
      simp only [mainRun, ha, hh]
      rw [if_neg hsym]
    refine ⟨⟨"KeyError", by rw [hrun]; rfl⟩, ?_, ?_⟩
    · intro url hmem
      rw [hrun] at hmem
      simp at hmem
    · intro _ s hmem
      rw [hrun] at hmem
      simp at hmem

/-- Witness for the amended C8 at the malformed world: the run ends in a
fatal error and no article was requested (though prices were). -/
theorem malformed_stub_behaviour_witness :
    (mainRun worldMalformed).getLast? = some (Event.fatal "KeyError") ∧
    Event.fetchArticle "http://a" ∉ mainRun worldMalformed := by
  have h := malformed_stub_behaviour worldMalformed stubNoURL stubOk rfl rfl
    (Or.inl rfl)
  exact ⟨by decide, h.2.1 "http://a"⟩

/-- Modelled from the spec: the impact-scoring stage that produces
`historical_prices_impact` is declared in `dataset_schema.py` but its
implementation is not under `src/`.  Its `daily_return` column is
modelled from the spec's words: the simple one-period return of the close
price, `(close_t / close_{t-1}) - 1`, computed along one symbol's bars in
date order, with the first observation (which has no prior bar) uniformly
treated as undefined (`none`). -/
def dailyReturnColumn (bars : List Bar) : List (Bar × Option ℚ) :=
  match bars with
  | [] => []
  | b :: rest =>
    (b, none) ::
      List.zipWith (fun prev cur => (cur, some (cur.close / prev.close - 1)))
        (b :: rest) rest

/-- C9: for a symbol with at least 2 bars the `daily_return` column keeps
one value per bar, leaves the first observation undefined, and at every
later position t equals `close_t / close_{t-1} - 1` exactly. -/
theorem daily_return_spec (bars : List Bar) (h2 : 2 ≤ bars.length) :
    (dailyReturnColumn bars).length = bars.length ∧
    ((dailyReturnColumn bars).map Prod.snd)[0]? = some none ∧
    ∀ t : Nat, 1 ≤ t → t < bars.length →
      ∀ prev cur, bars[t - 1]? = some prev → bars[t]? = some cur →
        (dailyReturnColumn bars)[t]?
          = some (cur, some (cur.close / prev.close - 1)) := by
  match bars, h2 with
  | b :: rest, _ =>
    refine ⟨?_, ?_, ?_⟩
    · simp only [dailyReturnColumn, List.length_cons, List.length_zipWith]
      omega
    · simp [dailyReturnColumn]
    · intro t ht1 htn prev cur hprev hcur
      obtain ⟨k, rfl⟩ : ∃ k, t = k + 1 := ⟨t - 1, by omega⟩
      have hk : (dailyReturnColumn (b :: rest))[k + 1]?
          = (List.zipWith (fun prev cur => (cur, some (cur.close / prev.close - 1)))
              (b :: rest) rest)[k]? := by
        simp [dailyReturnColumn]
      rw [hk, List.getElem?_zipWith]
      simp only [Nat.add_sub_cancel] at hprev
      have hcur' : rest[k]? = some cur := by
        simpa using hcur
      rw [hprev, hcur']

/-- Three concrete bars of one symbol for the C9 witness. -/
def barW0 : Bar := ⟨10, "AAA", 2, 2, 2, 2, 100⟩

def barW1 : Bar := ⟨11, "AAA", 3, 3, 3, 3, 100⟩

def barW2 : Bar := ⟨12, "AAA", 5, 5, 5, 5, 100⟩

/-- Witness for C9 on a concrete 3-bar series. -/
theorem daily_return_spec_witness :
    (dailyReturnColumn [barW0, barW1, barW2]).length = 3 ∧
    ((dailyReturnColumn [barW0, barW1, barW2]).map Prod.snd)[0]? = some none ∧
    (dailyReturnColumn [barW0, barW1, barW2])[1]?
      = some (barW1, some (barW1.close / barW0.close - 1)) ∧
    (dailyReturnColumn [barW0, barW1, barW2])[2]?
      = some (barW2, some (barW2.close / barW1.close - 1)) := by
  have h := daily_return_spec [barW0, barW1, barW2] (by decide)
  exact ⟨h.1, h.2.1,
    h.2.2 1 (by decide) (by decide) barW0 barW1 rfl rfl,
    h.2.2 2 (by decide) (by decide) barW1 barW2 rfl rfl⟩

end Sentiment
